import Mathlib

/-!
Shallow embedding of the Session & Command Execution Engine of
src/terminal-docker-bot.py (class TerminalBot), together with proofs of the
properties stated in the specification.

The Redis key-value store, the Docker daemon and the in-process worker
dictionaries are modelled as explicit state (structure `World`).  User
identities are natural numbers (Telegram ids).  Container ids are strings.
Each definition carries a doc comment naming the Python method and the line
range it embeds.
-/

/-- Pointwise update of a map with natural-number keys (models writing one
Redis key or one Python dict entry). -/
def upd {β : Type} (f : Nat → β) (k : Nat) (v : β) : Nat → β :=
  fun x => if x = k then v else f x

/-- Pointwise update of a map with string keys (models the Docker container
table, keyed by container id). -/
def updS {β : Type} (f : String → β) (k : String) (v : β) : String → β :=
  fun x => if x = k then v else f x

/-- A Docker container as the engine sees it: its reported status string
(for example "running") and the resource limits it was created with
(`container_kwargs`, src lines 1452-1476). -/
structure ContainerRec where
  status : String
  mem_limit : String
  pids_limit : Nat
  cpu_quota : Nat
  cpu_period : Nat
  network_mode : String
  deriving Repr, DecidableEq

/-- The JSON session record stored under key session:user_id
(`create_user_container`, src lines 1481-1493). -/
structure Session where
  container_id : Option String
  image : String
  shell : String
  ttl_seconds : Option Nat
  ttl_display : String
  config_name : String
  network : Bool
  created_at : Nat
  is_confirmed : Bool
  is_test : Bool
  deriving Repr, DecidableEq

/-- State of a per-user worker task created by `start_command_worker`
(src lines 684-722): still looping and idle, currently executing one
command, or returned from its loop (after the 5-minute idle timeout or
after finding no queue). -/
inductive WorkerSt where
  | looping
  | busy (c : String)
  | finishedW
  deriving Repr, DecidableEq

/-- The whole mutable state the engine touches: the Redis keys
(session:*, tokens:*, confirmed_users), the Docker container table, the
in-process dictionaries `command_queues` and `command_workers`, the set of
running token-billing tasks, and a trace of the commands whose results
were delivered, in delivery order. -/
structure World where
  sessions : Nat → Option Session
  tokens : Nat → Option Int
  confirmed : Nat → Bool
  containers : String → Option ContainerRec
  billing : Nat → Bool
  queues : Nat → Option (List String)
  workers : Nat → Option WorkerSt
  executed : List (Nat × String)

/-! ## Token Ledger (src lines 257-291) -/

/-- `self.initial_tokens = 480` (src line 99). -/
def initial_tokens : Int := 480

/-- `init_user_tokens` (src lines 257-262): if no tokens key exists for the
user, set it to the initial grant; otherwise leave it alone. -/
def init_user_tokens (w : World) (u : Nat) : World :=
  match w.tokens u with
  | some _ => w
  | none => { w with tokens := upd w.tokens u (some initial_tokens) }

/-- `get_user_tokens` (src lines 264-268): `int(tokens) if tokens else 0` —
an absent ledger record reads as balance 0. -/
def get_user_tokens (w : World) (u : Nat) : Int :=
  match w.tokens u with
  | some t => t
  | none => 0

/-- `consume_tokens` (src lines 270-284): confirmed users are never billed
(return true, no write); otherwise a balance that is ≤ 0 fails (return
false, no write), and a positive balance is replaced by
max 0 (balance - minutes) (return true). -/
def consume_tokens (w : World) (u : Nat) (minutes : Int) : World × Bool :=
  if w.confirmed u then (w, true)
  else
    let current := get_user_tokens w u
    if current ≤ 0 then (w, false)
    else ({ w with tokens := upd w.tokens u (some (max 0 (current - minutes))) }, true)

/-- `add_tokens` (src lines 286-292): unconditionally sets the balance to
current + amount. -/
def add_tokens (w : World) (u : Nat) (amount : Int) : World :=
  { w with tokens := upd w.tokens u (some (get_user_tokens w u + amount)) }

/-- n successive `consume_tokens(u, 1)` calls, discarding the booleans. -/
def consumeN (w : World) (u : Nat) : Nat → World
  | 0 => w
  | n + 1 => consumeN (consume_tokens w u 1).1 u n

/-! ## Deny list (src lines 2256-2264, `is_command_dangerous`) -/

/-- Does the first character list start the second (character-by-character
prefix test, used to embed the Python substring operator). -/
def strStarts : List Char → List Char → Bool
  | [], _ => true
  | _ :: _, [] => false
  | a :: as, b :: bs => a = b && strStarts as bs

/-- Is the first character list a contiguous substring of the second
(embeds the Python expression "pattern in command_lower"). -/
def strHasSub (needle : List Char) : List Char → Bool
  | [] => strStarts needle []
  | h :: t => strStarts needle (h :: t) || strHasSub needle t

/-- The fixed deny list of `is_command_dangerous` (src lines 2258-2261).
The fourth entry is the bash fork bomb; its braces are written with
character escapes. -/
def dangerous_patterns : List String :=
  ["rm -rf /", "rm -rf /*", "dd if=", "mkfs", ":()\x7b:|:&\x7d;:",
   "> /dev/sd", "> /dev/hd", "chmod 777 /", "passwd root"]

/-- `is_command_dangerous` (src lines 2256-2264): lower-cases the command
and tests each pattern for substring occurrence.  Lower-casing is applied
character-wise; the deny-list patterns are all ASCII, for which this
agrees with the Python str.lower call. -/
def is_command_dangerous (command : String) : Bool :=
  dangerous_patterns.any
    (fun p => strHasSub p.toList (command.toList.map Char.toLower))

/-! ## Single command execution (src lines 1507-1601) -/

/-- What actually happens inside the container when
`_run_command_sync` (src lines 1585-1601) invokes a given full command:
its combined output, its exit code, and how long it takes in seconds.
The engine is parametrised over this oracle. -/
structure RunSpec where
  output : String
  exit_code : Int
  duration : Nat
  deriving Repr, DecidableEq

/-- The visible outcome of `_execute_single_command` (the text finally
written to the status message, or one of its early-return error paths). -/
inductive ExecOutcome where
  | sessionNotFound
  | noContainerId
  | containerGone
  | forbidden
  | commandTimeout
  | delivered (text : String) (exit_code : Int)
  deriving Repr, DecidableEq

/-- The probationary ("test") configuration `self.test_config`
(src lines 103-113). -/
structure TestConfig where
  image : String
  shell : String
  mem_limit : String
  cpu_quota : Nat
  cpu_period : Nat
  pids_limit : Nat
  timeout : Nat
  max_session_time : Nat
  no_background : Bool
  deriving Repr, DecidableEq

def test_config : TestConfig :=
  { image := "alpine:latest", shell := "sh", mem_limit := "50m",
    cpu_quota := 25000, cpu_period := 100000, pids_limit := 10,
    timeout := 80, max_session_time := 1200, no_background := true }

/-- Output post-processing of `_execute_single_command` (src lines
1570-1575): empty output with a non-zero exit code becomes a synthesized
failure line, empty output with exit code zero becomes a success line,
any other output is passed through. -/
def render_output (r : RunSpec) : String :=
  if r.exit_code ≠ 0 ∧ r.output = "" then
    "Команда завершилась с кодом ошибки: " ++ toString r.exit_code
  else if r.output = "" then
    "Команда выполнена успешно (нет вывода)"
  else r.output

/-- `_execute_single_command` (src lines 1507-1583).  Returns the possibly
changed world (the session record is deleted when the referenced container
is gone), the outcome, and the list of full command strings handed to the
container runtime (empty when the command never reached the runtime).
Steps, in source order: look up the session record; read container_id,
shell (default "bash") and is_test (default false); fail if container_id
is falsy; fetch the container, deleting the session on failure; apply the
deny list for unconfirmed users; build the invocation shell -c "command";
run it, bounded by the 80-second test_config timeout only when is_test;
synthesize output text for empty output. -/
def execute_single_command (w : World) (u : Nat) (command : String)
    (run : String → RunSpec) : World × ExecOutcome × List String :=
  match w.sessions u with
  | none => (w, ExecOutcome.sessionNotFound, [])
  | some session =>
    match session.container_id with
    | none => (w, ExecOutcome.noContainerId, [])
    | some cid =>
      if cid = "" then (w, ExecOutcome.noContainerId, [])
      else
        match w.containers cid with
        | none => ({ w with sessions := upd w.sessions u none },
                   ExecOutcome.containerGone, [])
        | some _ =>
          if w.confirmed u = false ∧ is_command_dangerous command then
            (w, ExecOutcome.forbidden, [])
          else
            let full_command := session.shell ++ " -c \"" ++ command ++ "\""
            let r := run full_command
            if session.is_test ∧ test_config.timeout < r.duration then
              (w, ExecOutcome.commandTimeout, [full_command])
            else
              (w, ExecOutcome.delivered (render_output r) r.exit_code,
               [full_command])

/-! ## Resource Profile Catalog (src lines 117-149) -/

structure ResourceConfig where
  name : String
  cpu_period : Nat
  cpu_quota : Nat
  mem_limit : String
  pids_limit : Nat
  description : String
  deriving Repr, DecidableEq

/-- `self.resource_configs` (src lines 117-149). -/
def resource_configs : String → Option ResourceConfig := fun k =>
  if k = "minimal" then
    some { name := "Базовая", cpu_period := 100000, cpu_quota := 30000,
           mem_limit := "246m", pids_limit := 25, description := "246MB RAM, 30% CPU" }
  else if k = "medium" then
    some { name := "Средняя", cpu_period := 100000, cpu_quota := 50000,
           mem_limit := "246m", pids_limit := 50, description := "270MB RAM, 50% CPU" }
  else if k = "enhanced" then
    some { name := "Улучшенная", cpu_period := 100000, cpu_quota := 75000,
           mem_limit := "428m", pids_limit := 100, description := "428MB RAM, 75% CPU" }
  else if k = "maximum" then
    some { name := "Максимальная", cpu_period := 100000, cpu_quota := 100000,
           mem_limit := "612m", pids_limit := 200, description := "512MB RAM, 100% CPU" }
  else none

/-! ## Attribute table of the TerminalBot object

Python resolves self.name against the methods defined in the class body
plus the instance attributes assigned in the constructor.  The two async
helpers `_token_consumption_worker` and `stop_session_due_to_tokens`
(src lines 294 and 340) are indented inside the body of `add_tokens`, so
they are local functions of that method, not attributes of the object. -/

/-- Every method defined at class level in class TerminalBot
(src lines 42-2402, in source order; `handle_upload` appears twice in the
source and once here). -/
def terminalBotMethods : List String :=
  ["__init__", "cleanup_old_sessions", "cleanup_old_containers",
   "init_confirmed_users", "is_admin", "is_confirmed_user",
   "add_confirmed_user", "has_active_session", "get_session_info",
   "setup_signal_handlers", "init_user_tokens", "get_user_tokens",
   "consume_tokens", "add_tokens", "nohup_command", "_execute_nohup_command",
   "show_token_exhausted_menu", "show_token_info", "background_processes",
   "kill_process", "check_callback_access", "start", "container_command",
   "start_command_worker", "_command_worker", "show_main_menu",
   "handle_callback", "container_status", "stop_session",
   "admin_token_management", "cancel_user_commands", "cancel_command",
   "launch_menu", "select_image", "custom_image_input", "process_custom_image",
   "select_shell", "toggle_network", "select_config", "select_ttl",
   "create_user_container", "_execute_single_command", "_run_command_sync",
   "execute_command", "docker_command", "send_smart_output", "handle_upload",
   "handle_download", "information_menu", "admin_menu", "user_management",
   "container_management", "admin_stats", "add_user_prompt",
   "receive_user_id", "confirm_add_user", "is_command_dangerous", "cancel",
   "inline_query", "handle_group_message"]

/-- Every instance attribute assigned in the constructor
(src lines 42-157). -/
def terminalBotInstanceAttrs : List String :=
  ["docker_client", "redis", "admin_ids", "file_limits", "available_images",
   "available_shells", "ttl_options", "initial_tokens",
   "token_consumption_rate", "test_config", "resource_configs",
   "command_queues", "command_workers", "active_commands", "thread_pool"]

/-- self.name resolves without AttributeError exactly when the name is a
class method or a constructor-assigned attribute. -/
def terminalBotHasAttr (name : String) : Bool :=
  terminalBotMethods.contains name || terminalBotInstanceAttrs.contains name

/-! ## Session creation (src lines 1413-1505, `create_user_container`) -/

inductive CreateResult where
  | ok (cid : String)
  | keyError (k : String)
  | attributeError (missing : String)
  deriving Repr, DecidableEq

/-- Stage 1 of `create_user_container` (src lines 1416-1435): if a session
record exists for the user and names a container, stop and remove that
container, swallowing any error (a missing container changes nothing). -/
def teardown_old (w : World) (u : Nat) : World :=
  match w.sessions u with
  | some s =>
    match s.container_id with
    | some cid =>
      if cid = "" then w
      else
        match w.containers cid with
        | some _ => { w with containers := updS w.containers cid none }
        | none => w
    | none => w
  | none => w

/-- Stage 2 of `create_user_container` (src lines 1437-1448): the
effective resource configuration — the fixed test configuration for
probationary sessions, otherwise `self.resource_configs[config_key]`
(none models the KeyError on an unknown key). -/
def cfgOf (is_test : Bool) (config_key : String) : Option ResourceConfig :=
  if is_test then
    some { name := "Тестовая", cpu_period := test_config.cpu_period,
           cpu_quota := test_config.cpu_quota, mem_limit := test_config.mem_limit,
           pids_limit := test_config.pids_limit,
           description := "50MB RAM, 25% CPU" }
  else resource_configs config_key

/-- Stages 3 and 4 of `create_user_container` (src lines 1450-1498):
create the new container with the configured limits (overridden to 64m
memory / 20 pids for unconfirmed non-test users) and store the session
record under the user's key. -/
def persist_new (w1 : World) (u : Nat) (image : String) (shell : String)
    (ttl_seconds : Option Nat) (ttl_display : String) (cfg : ResourceConfig)
    (network : Bool) (is_test : Bool) (newCid : String) (now : Nat) : World :=
  let base : ContainerRec :=
    { status := "running", mem_limit := cfg.mem_limit,
      pids_limit := cfg.pids_limit, cpu_quota := cfg.cpu_quota,
      cpu_period := cfg.cpu_period,
      network_mode := if network then "bridge" else "none" }
  let limited :=
    if w1.confirmed u = false ∧ is_test = false then
      { base with mem_limit := "64m", pids_limit := 20 }
    else base
  let w2 := { w1 with containers := updS w1.containers newCid (some limited) }
  let sess : Session :=
    { container_id := some newCid, image := image, shell := shell,
      ttl_seconds := ttl_seconds, ttl_display := ttl_display,
      config_name := cfg.name, network := network, created_at := now,
      is_confirmed := w2.confirmed u, is_test := is_test }
  { w2 with sessions := upd w2.sessions u (some sess) }

/-- `create_user_container` (src lines 1413-1505).  `newCid` is the id
Docker assigns to the freshly created container and `now` the creation
timestamp.  Source order: teardown of the prior environment, resource
resolution, container creation, record persistence (stored with TTL
expiry when ttl_seconds is set; expiry itself is not modelled), and, for
untrusted non-test users, a call of self.start_token_consumption — an
attribute that does not exist on the object, so that last step raises
AttributeError after the record was already stored. -/
def create_user_container (w : World) (u : Nat) (image : String)
    (shell : String) (ttl_seconds : Option Nat) (ttl_display : String)
    (config_key : String) (network : Bool) (is_test : Bool)
    (newCid : String) (now : Nat) : World × CreateResult :=
  let w1 := teardown_old w u
  match cfgOf is_test config_key with
  | none => (w1, CreateResult.keyError config_key)
  | some cfg =>
    let w3 := persist_new w1 u image shell ttl_seconds ttl_display cfg
                network is_test newCid now
    if is_test = false ∧ w3.confirmed u = false then
      if terminalBotHasAttr "start_token_consumption" then
        ({ w3 with billing := upd w3.billing u true }, CreateResult.ok newCid)
      else (w3, CreateResult.attributeError "start_token_consumption")
    else (w3, CreateResult.ok newCid)

/-! ## Session stop (src lines 959-999 and 1034-1054) -/

/-- `cancel_user_commands` (src lines 1034-1054): cancel and drop the
worker task entry, drain and drop the queue entry (the active_commands
bookkeeping is not modelled separately). -/
def cancel_user_commands (w : World) (u : Nat) : World :=
  { w with workers := upd w.workers u none, queues := upd w.queues u none }

/-- `stop_session` (src lines 959-999): cancel the user commands, then if
a session record exists and names an existing container, stop and remove
it (all container errors are logged and swallowed), and finally delete
the session key unconditionally (deleting an absent Redis key is a
no-op).  The returned Bool records whether an environment stop/remove was
attempted. -/
def stop_session (w : World) (u : Nat) : World × Bool :=
  let w1 := cancel_user_commands w u
  match w1.sessions u with
  | some s =>
    match s.container_id with
    | some cid =>
      if cid = "" then
        ({ w1 with sessions := upd w1.sessions u none }, false)
      else
        match w1.containers cid with
        | some _ =>
          ({ w1 with sessions := upd w1.sessions u none,
                     containers := updS w1.containers cid none }, true)
        | none => ({ w1 with sessions := upd w1.sessions u none }, false)
    | none => ({ w1 with sessions := upd w1.sessions u none }, false)
  | none => ({ w1 with sessions := upd w1.sessions u none }, false)

/-! ## Startup reconciliation (src lines 160-187, `cleanup_old_sessions`) -/

/-- How `cleanup_old_sessions` treats one stored record: a record whose
container_id is absent or empty (falsy in Python) is kept; a record whose
container no longer exists is deleted (the docker NotFound handler); a
record whose container is not in status "running" is deleted; a record
with a running container is kept. -/
def cleanup_one (containers : String → Option ContainerRec)
    (s : Session) : Option Session :=
  match s.container_id with
  | none => some s
  | some cid =>
    if cid = "" then some s
    else
      match containers cid with
      | none => none
      | some c => if c.status = "running" then some s else none

/-- `cleanup_old_sessions` (src lines 160-187): iterate over every
session:* key and apply `cleanup_one` to its record.  Each loop iteration
reads and possibly deletes only its own key, so the loop is the pointwise
map below.  Token balances and the confirmed-user set are never touched. -/
def cleanup_old_sessions (w : World) : World :=
  { w with sessions := fun u =>
      match w.sessions u with
      | none => none
      | some s => cleanup_one w.containers s }

/-! ## Command Execution Queue semantics

`execute_command` (src lines 1603-1631) enqueues, and the worker closure
created by `start_command_worker` (src lines 684-722) drains the queue.
The cooperative asyncio interleaving of these coroutines is modelled as a
labelled transition system over `World`.  Suspension points in the source
delimit the atomic steps: enqueueing (worker registration, queue creation
and put happen with no await between them), the worker pulling one entry
off the queue, the worker finishing one entry and delivering its result,
the worker hitting the 5-minute idle timeout, a worker started without a
queue returning at once, and `cancel_user_commands`. -/

inductive ELabel where
  | submit (u : Nat) (c : String)
  | pull (u : Nat) (c : String)
  | deliver (u : Nat) (c : String)
  | idle (u : Nat)
  | noQueue (u : Nat)
  | cancel (u : Nat)
  deriving Repr, DecidableEq

/-- State effect of `execute_command` (src lines 1614-1626) for a user
with an active session: start a worker only when no entry is registered
under the user (the entry of a worker that already returned counts as
registered), create the queue only when absent, then append the command. -/
def submit_command (w : World) (u : Nat) (c : String) : World :=
  let w1 :=
    if w.workers u = none then
      { w with workers := upd w.workers u (some WorkerSt.looping) }
    else w
  let w2 :=
    if w1.queues u = none then { w1 with queues := upd w1.queues u (some []) }
    else w1
  match w2.queues u with
  | some q => { w2 with queues := upd w2.queues u (some (q ++ [c])) }
  | none => w2

/-- State effect of the worker pulling the head entry off its queue
(src lines 697-700, queue.get). -/
def pull_step (w : World) (u : Nat) (rest : List String) (c : String) : World :=
  { w with workers := upd w.workers u (some (WorkerSt.busy c)),
           queues := upd w.queues u (some rest) }

/-- State effect of the worker finishing one entry (src lines 706-710):
the command was run through `_execute_single_command` (whose only store
effect is deleting the session record when the container is gone), its
result was delivered, and the worker loops for the next entry. -/
def deliver_step (run : String → RunSpec) (w : World) (u : Nat)
    (c : String) : World :=
  let we := (execute_single_command w u c run).1
  { we with workers := upd we.workers u (some WorkerSt.looping),
            executed := we.executed ++ [(u, c)] }

/-- State effect of the worker leaving its loop (the 5-minute idle
timeout at src lines 701-703, or the missing-queue early return at src
lines 690-692): the task returns, but its entry in `command_workers` and
the queue in `command_queues` are left in place. -/
def worker_exit (w : World) (u : Nat) : World :=
  { w with workers := upd w.workers u (some WorkerSt.finishedW) }

inductive EngStep (run : String → RunSpec) : World → ELabel → World → Prop where
  | submit {w : World} {u : Nat} {c : String} :
      (w.sessions u).isSome = true →
      EngStep run w (ELabel.submit u c) (submit_command w u c)
  | pull {w : World} {u : Nat} {c : String} {rest : List String} :
      w.workers u = some WorkerSt.looping →
      w.queues u = some (c :: rest) →
      EngStep run w (ELabel.pull u c) (pull_step w u rest c)
  | deliver {w : World} {u : Nat} {c : String} :
      w.workers u = some (WorkerSt.busy c) →
      EngStep run w (ELabel.deliver u c) (deliver_step run w u c)
  | idle {w : World} {u : Nat} :
      w.workers u = some WorkerSt.looping →
      w.queues u = some [] →
      EngStep run w (ELabel.idle u) (worker_exit w u)
  | noQueue {w : World} {u : Nat} :
      w.workers u = some WorkerSt.looping →
      w.queues u = none →
      EngStep run w (ELabel.noQueue u) (worker_exit w u)
  | cancel {w : World} {u : Nat} :
      EngStep run w (ELabel.cancel u) (cancel_user_commands w u)

/-- A finite run of the queue subsystem with its trace of labels. -/
inductive Run (run : String → RunSpec) : World → List ELabel → World → Prop where
  | nil {w : World} : Run run w [] w
  | cons {w w1 w2 : World} {l : ELabel} {ls : List ELabel} :
      EngStep run w l w1 → Run run w1 ls w2 → Run run w (l :: ls) w2

/-- The commands user u submitted in a trace, in order. -/
def submitsFor (u : Nat) : List ELabel → List String
  | [] => []
  | ELabel.submit v c :: ls =>
    if v = u then c :: submitsFor u ls else submitsFor u ls
  | _ :: ls => submitsFor u ls

/-- The commands whose results were delivered to user u in a trace, in
order. -/
def deliveredFor (u : Nat) : List ELabel → List String
  | [] => []
  | ELabel.deliver v c :: ls =>
    if v = u then c :: deliveredFor u ls else deliveredFor u ls
  | _ :: ls => deliveredFor u ls

/-- The results delivered to user u, read off the world's delivery
trace. -/
def execFor (u : Nat) : List (Nat × String) → List String
  | [] => []
  | (v, c) :: l => if v = u then c :: execFor u l else execFor u l

/-- The command the user's worker is currently executing, as a list
(empty or a singleton). -/
def busyList : Option WorkerSt → List String
  | some (WorkerSt.busy c) => [c]
  | _ => []

/-- The pending entries of the user's queue (absent queue reads as
empty). -/
def queueList : Option (List String) → List String
  | some q => q
  | none => []

/-! ## Concrete states used to exercise the definitions -/

/-- The world with no sessions, no balances, no confirmed users, no
containers, no queues and no workers. -/
def emptyWorld : World :=
  { sessions := fun _ => none, tokens := fun _ => none,
    confirmed := fun _ => false, containers := fun _ => none,
    billing := fun _ => false, queues := fun _ => none,
    workers := fun _ => none, executed := [] }

/-- A non-probationary session record bound to container cid1. -/
def demo_session : Session :=
  { container_id := some "cid1", image := "alpine:latest", shell := "sh",
    ttl_seconds := some 3600, ttl_display := "1h", config_name := "Базовая",
    network := true, created_at := 0, is_confirmed := false, is_test := false }

/-- A probationary (test) session record bound to container cid2. -/
def test_session : Session :=
  { container_id := some "cid2", image := "alpine:latest", shell := "sh",
    ttl_seconds := some 1200, ttl_display := "20m", config_name := "Тестовая",
    network := false, created_at := 0, is_confirmed := false, is_test := true }

/-- A running container record. -/
def demo_container : ContainerRec :=
  { status := "running", mem_limit := "64m", pids_limit := 20,
    cpu_quota := 30000, cpu_period := 100000, network_mode := "bridge" }

/-- A stopped (exited) container record. -/
def exited_container : ContainerRec :=
  { status := "exited", mem_limit := "64m", pids_limit := 20,
    cpu_quota := 30000, cpu_period := 100000, network_mode := "bridge" }

/-- World for exercising the Token Ledger: user 8 confirmed with balance 5,
user 9 unconfirmed with the initial grant of 480; user 10 has no ledger
record. -/
def ledgerWorld : World :=
  { emptyWorld with
    tokens := fun v => if v = 9 then some 480 else if v = 8 then some 5 else none,
    confirmed := fun v => v == 8 }

/-! ## Claims about the Token Ledger -/

/-- The session of the confirmed demo user, using the bash shell. -/
def bash_session : Session := { demo_session with shell := "bash" }

/-- World for exercising single command execution: user 5 unconfirmed with
a normal session, user 6 confirmed with a normal session, user 11
unconfirmed with a probationary session, user 12 unconfirmed with a
normal session; both referenced containers run. -/
def execWorld : World :=
  { emptyWorld with
    sessions := fun v =>
      if v = 5 then some demo_session
      else if v = 6 then some bash_session
      else if v = 11 then some test_session
      else if v = 12 then some demo_session
      else none,
    containers := fun cid =>
      if cid = "cid1" ∨ cid = "cid2" then some demo_container else none,
    confirmed := fun v => v == 6 }

/-- A run oracle whose commands answer instantly. -/
def okRun : String → RunSpec :=
  fun _ => { output := "ok", exit_code := 0, duration := 1 }

/-- A run oracle whose commands take 100 seconds. -/
def slowRun : String → RunSpec :=
  fun _ => { output := "", exit_code := 0, duration := 100 }

/-- A run oracle whose commands take a million seconds. -/
def hugeRun : String → RunSpec :=
  fun _ => { output := "done", exit_code := 0, duration := 1000000 }

/-! ## Claims about single command execution -/

/-! ## Claims about session stop -/

/-! ## Claims about startup reconciliation -/

/-- World for exercising `cleanup_old_sessions`: user 3's record points at
a container that no longer exists, user 4's record points at a running
container, user 5's record points at an exited container; user 4 is
confirmed and users 3 and 9 hold token balances. -/
def staleWorld : World :=
  { emptyWorld with
    sessions := fun v =>
      if v = 3 then some { demo_session with container_id := some "gone" }
      else if v = 4 then some bash_session
      else if v = 5 then some demo_session
      else none,
    containers := fun cid =>
      if cid = "cid1" then some demo_container
      else if cid = "cid9" then some exited_container
      else none,
    confirmed := fun v => v == 4,
    tokens := fun v => if v = 3 then some 17 else if v = 9 then some 480 else none }

/-! ## Claims about session creation -/

/-- First creation of the C3 scenario: user 2 gets container c100. -/
def c3p1 : World × CreateResult :=
  create_user_container emptyWorld 2 "alpine:latest" "sh" (some 3600) "1h"
    "minimal" true false "c100" 0

/-- Second creation of the C3 scenario: user 2 gets container c200. -/
def c3p2 : World × CreateResult :=
  create_user_container c3p1.1 2 "ubuntu:latest" "bash" none "always"
    "medium" true false "c200" 5

/-! ## Claims about the queue lifecycle -/

/-- The starting world of the C2 scenario: user 7 has an active session,
a still-looping worker and an empty queue. -/
def c2w0 : World :=
  { emptyWorld with
    sessions := fun v => if v = 7 then some demo_session else none,
    containers := fun cid => if cid = "cid1" then some demo_container else none,
    workers := fun v => if v = 7 then some WorkerSt.looping else none,
    queues := fun v => if v = 7 then some [] else none }

/-- The C2 scenario after the idle timeout fires for user 7. -/
def c2w1 : World := worker_exit c2w0 7

/-- The C2 scenario after user 7 then submits one more command. -/
def c2w2 : World := submit_command c2w1 7 "echo hi"

/-- The starting world of the C4 scenario: user 7 has an active session
and no queue or worker yet. -/
def c4w0 : World :=
  { emptyWorld with
    sessions := fun v => if v = 7 then some demo_session else none,
    containers := fun cid => if cid = "cid1" then some demo_container else none }

/-- The C4 trace: three submissions in order, then the worker drains them
one at a time. -/
def c4ls : List ELabel :=
  [ELabel.submit 7 "date", ELabel.submit 7 "pwd", ELabel.submit 7 "ls",
   ELabel.pull 7 "date", ELabel.deliver 7 "date",
   ELabel.pull 7 "pwd", ELabel.deliver 7 "pwd",
   ELabel.pull 7 "ls", ELabel.deliver 7 "ls"]

def c4w1 : World := submit_command c4w0 7 "date"

def c4w2 : World := submit_command c4w1 7 "pwd"

def c4w3 : World := submit_command c4w2 7 "ls"

def c4w4 : World := pull_step c4w3 7 ["pwd", "ls"] "date"

def c4w5 : World := deliver_step okRun c4w4 7 "date"

def c4w6 : World := pull_step c4w5 7 ["ls"] "pwd"

def c4w7 : World := deliver_step okRun c4w6 7 "pwd"

def c4w8 : World := pull_step c4w7 7 [] "ls"

def c4w9 : World := deliver_step okRun c4w8 7 "ls"

/-! ## Theorems -/

@[simp] theorem upd_same {β : Type} (f : Nat → β) (k : Nat) (v : β) :
    upd f k v k = v := by simp [upd]

@[simp] theorem upd_other {β : Type} (f : Nat → β) (k x : Nat) (v : β) (h : x ≠ k) :
    upd f k v x = f x := by simp [upd, h]

@[simp] theorem updS_same {β : Type} (f : String → β) (k : String) (v : β) :
    updS f k v k = v := by simp [updS]

@[simp] theorem updS_other {β : Type} (f : String → β) (k x : String) (v : β) (h : x ≠ k) :
    updS f k v x = f x := by simp [updS, h]

theorem World.ext_iff {w1 w2 : World} :
    w1 = w2 ↔ w1.sessions = w2.sessions ∧ w1.tokens = w2.tokens ∧
      w1.confirmed = w2.confirmed ∧ w1.containers = w2.containers ∧
      w1.billing = w2.billing ∧ w1.queues = w2.queues ∧
      w1.workers = w2.workers ∧ w1.executed = w2.executed := by
  constructor
  · intro h; subst h; exact ⟨rfl, rfl, rfl, rfl, rfl, rfl, rfl, rfl⟩
  · rintro ⟨h1, h2, h3, h4, h5, h6, h7, h8⟩
    cases w1; cases w2; simp_all

theorem consume_tokens_confirmed (w : World) (u : Nat) (minutes : Int)
    (h : w.confirmed u = true) : consume_tokens w u minutes = (w, true) := by
  simp [consume_tokens, h]

theorem consume_tokens_step (w : World) (u : Nat) (b : Int)
    (hc : w.confirmed u = false) (hb : w.tokens u = some b) (hpos : 0 < b) :
    (consume_tokens w u 1).1.tokens u = some (b - 1) ∧
      (consume_tokens w u 1).1.confirmed = w.confirmed ∧
      (consume_tokens w u 1).2 = true := by
  have hget : get_user_tokens w u = b := by simp [get_user_tokens, hb]
  have hnot : ¬ b ≤ 0 := by omega
  have hmax : max (0 : Int) (b - 1) = b - 1 := by omega
  refine ⟨?_, ?_, ?_⟩ <;> simp [consume_tokens, hc, hget, hnot, hmax]

theorem consumeN_balance (u : Nat) (n : Nat) :
    ∀ (w : World) (b : Int), w.confirmed u = false → w.tokens u = some b →
      (n : Int) ≤ b →
      (consumeN w u n).tokens u = some (b - n) ∧
        (consumeN w u n).confirmed = w.confirmed := by
  induction n with
  | zero => intro w b _ hb _; simpa [consumeN] using hb
  | succ n ih =>
    intro w b hc hb hn
    have hpos : 0 < b := by
      have : ((n : Int) + 1) ≤ b := by push_cast at hn ⊢; omega
      omega
    obtain ⟨h1, h2, _⟩ := consume_tokens_step w u b hc hb hpos
    have hc2 : (consume_tokens w u 1).1.confirmed u = false := by rw [h2]; exact hc
    have hrec := ih (consume_tokens w u 1).1 (b - 1) hc2 h1 (by push_cast at hn ⊢; omega)
    constructor
    · rw [consumeN, hrec.1]; congr 1; push_cast; ring
    · rw [consumeN, hrec.2, h2]

@[simp] theorem execFor_append (u : Nat) (l1 l2 : List (Nat × String)) :
    execFor u (l1 ++ l2) = execFor u l1 ++ execFor u l2 := by
  induction l1 with
  | nil => simp [execFor]
  | cons p l1 ih =>
    obtain ⟨v, c⟩ := p
    by_cases h : v = u <;> simp [execFor, h, ih]

@[simp] theorem execFor_single_self (u : Nat) (c : String) :
    execFor u [(u, c)] = [c] := by simp [execFor]

theorem execFor_single_other {u v : Nat} (c : String) (h : v ≠ u) :
    execFor u [(v, c)] = [] := by simp [execFor, h]

theorem execute_single_frame (w : World) (u : Nat) (c : String)
    (run : String → RunSpec) :
    (execute_single_command w u c run).1.queues = w.queues ∧
      (execute_single_command w u c run).1.workers = w.workers ∧
      (execute_single_command w u c run).1.executed = w.executed ∧
      (execute_single_command w u c run).1.containers = w.containers ∧
      (execute_single_command w u c run).1.confirmed = w.confirmed ∧
      (execute_single_command w u c run).1.tokens = w.tokens := by
  unfold execute_single_command
  dsimp only
  repeat' split
  all_goals exact ⟨rfl, rfl, rfl, rfl, rfl, rfl⟩

theorem submit_command_fields (w : World) (u : Nat) (c : String) :
    (submit_command w u c).sessions = w.sessions ∧
      (submit_command w u c).executed = w.executed := by
  unfold submit_command
  dsimp only
  repeat' split
  all_goals exact ⟨rfl, rfl⟩

theorem submit_command_busy (w : World) (u : Nat) (c : String) :
    busyList ((submit_command w u c).workers u) = busyList (w.workers u) := by
  unfold submit_command
  cases hw : w.workers u <;> cases hq : w.queues u <;>
    simp [hw, hq, upd, busyList]

theorem submit_command_queue (w : World) (u : Nat) (c : String) :
    (submit_command w u c).queues u = some (queueList (w.queues u) ++ [c]) := by
  unfold submit_command
  cases hw : w.workers u <;> cases hq : w.queues u <;>
    simp [hw, hq, queueList, upd]

theorem submit_command_workers_kept (w : World) (u : Nat) (c : String)
    (s : WorkerSt) (h : w.workers u = some s) :
    (submit_command w u c).workers u = some s := by
  unfold submit_command
  cases hq : w.queues u <;> simp [h, hq, upd]

theorem submit_command_other (w : World) (u v : Nat) (c : String) (h : v ≠ u) :
    (submit_command w u c).workers v = w.workers v ∧
      (submit_command w u c).queues v = w.queues v := by
  unfold submit_command
  cases hw : w.workers u <;> cases hq : w.queues u <;>
    simp [hw, hq, upd, h]

theorem deliver_step_fields (run : String → RunSpec) (w : World) (u : Nat)
    (c : String) :
    (deliver_step run w u c).queues = w.queues ∧
      (deliver_step run w u c).workers = upd w.workers u (some WorkerSt.looping) ∧
      (deliver_step run w u c).executed = w.executed ++ [(u, c)] := by
  obtain ⟨h1, h2, h3, _, _, _⟩ := execute_single_frame w u c run
  unfold deliver_step
  dsimp only
  exact ⟨h1, by rw [h2], by rw [h3]⟩

/-- Per-user FIFO bookkeeping of the queue subsystem: along any run that
does not cancel user u, the results delivered to u followed by the
command u's worker is executing and u's pending queue equal the worker
and queue contents at the start followed by u's submissions, and the
delivery trace grows exactly by the delivered commands. -/
theorem run_fifo_invariant (run : String → RunSpec) (u : Nat) :
    ∀ (ls : List ELabel) (w1 w2 : World), Run run w1 ls w2 →
      ELabel.cancel u ∉ ls →
      (deliveredFor u ls ++ busyList (w2.workers u) ++ queueList (w2.queues u)
          = busyList (w1.workers u) ++ queueList (w1.queues u) ++ submitsFor u ls)
        ∧ execFor u w2.executed = execFor u w1.executed ++ deliveredFor u ls := by
  intro ls
  induction ls with
  | nil =>
    intro w1 w2 hrun _
    cases hrun
    simp [deliveredFor, submitsFor]
  | cons l ls ih =>
    intro w1 w2 hrun hnc
    rw [List.mem_cons] at hnc
    push_neg at hnc
    obtain ⟨hne, hnotin⟩ := hnc
    cases hrun with
    | cons hstep htail =>
    cases hstep with
    | submit hs =>
      rename_i v c
      have IH := ih _ w2 htail hnotin
      obtain ⟨_, hs2⟩ := submit_command_fields w1 v c
      by_cases hv : v = u
      · subst hv
        have hb := submit_command_busy w1 v c
        have hq := submit_command_queue w1 v c
        refine ⟨?_, ?_⟩
        · have e1 : deliveredFor v (ELabel.submit v c :: ls) = deliveredFor v ls := by
            simp [deliveredFor]
          have e2 : submitsFor v (ELabel.submit v c :: ls) = c :: submitsFor v ls := by
            simp [submitsFor]
          rw [e1, e2, IH.1, hb, hq]
          simp [queueList]
        · have e1 : deliveredFor v (ELabel.submit v c :: ls) = deliveredFor v ls := by
            simp [deliveredFor]
          rw [e1, IH.2, hs2]
      · have ho := submit_command_other w1 v u c (fun h => hv h.symm)
        have e1 : deliveredFor u (ELabel.submit v c :: ls) = deliveredFor u ls := by
          simp [deliveredFor]
        have e2 : submitsFor u (ELabel.submit v c :: ls) = submitsFor u ls := by
          simp [submitsFor, hv]
        refine ⟨?_, ?_⟩
        · rw [e1, e2, IH.1, ho.1, ho.2]
        · rw [e1, IH.2, hs2]
    | pull hw hq =>
      rename_i v c rest
      have IH := ih _ w2 htail hnotin
      have he : (pull_step w1 v rest c).executed = w1.executed := rfl
      have e1 : deliveredFor u (ELabel.pull v c :: ls) = deliveredFor u ls := by
        simp [deliveredFor]
      have e2 : submitsFor u (ELabel.pull v c :: ls) = submitsFor u ls := by
        simp [submitsFor]
      by_cases hv : v = u
      · subst hv
        refine ⟨?_, ?_⟩
        · rw [e1, e2, IH.1]
          simp [pull_step, upd, busyList, queueList, hw, hq]
        · rw [e1, IH.2, he]
      · refine ⟨?_, ?_⟩
        · have hvu : u ≠ v := fun h => hv h.symm
          rw [e1, e2, IH.1]
          simp [pull_step, upd, hvu]
        · rw [e1, IH.2, he]
    | deliver hw =>
      rename_i v c
      have IH := ih _ w2 htail hnotin
      obtain ⟨hd1, hd2, hd3⟩ := deliver_step_fields run w1 v c
      by_cases hv : v = u
      · subst hv
        have e1 : deliveredFor v (ELabel.deliver v c :: ls) = c :: deliveredFor v ls := by
          simp [deliveredFor]
        have e2 : submitsFor v (ELabel.deliver v c :: ls) = submitsFor v ls := by
          simp [submitsFor]
        refine ⟨?_, ?_⟩
        · rw [e1, e2]
          have : (c :: deliveredFor v ls) ++ busyList (w2.workers v) ++ queueList (w2.queues v)
              = c :: (deliveredFor v ls ++ busyList (w2.workers v) ++ queueList (w2.queues v)) := by
            simp
          rw [this, IH.1, hd1, hd2]
          simp [upd, busyList, hw]
        · rw [e1, IH.2, hd3]
          simp
      · have hvu : u ≠ v := fun h => hv h.symm
        have e1 : deliveredFor u (ELabel.deliver v c :: ls) = deliveredFor u ls := by
          simp [deliveredFor, hv]
        have e2 : submitsFor u (ELabel.deliver v c :: ls) = submitsFor u ls := by
          simp [submitsFor]
        refine ⟨?_, ?_⟩
        · rw [e1, e2, IH.1, hd1, hd2]
          simp [upd, hvu]
        · rw [e1, IH.2, hd3]
          simp [execFor_single_other c hv]
    | idle hw hq =>
      rename_i v
      have IH := ih _ w2 htail hnotin
      have e1 : deliveredFor u (ELabel.idle v :: ls) = deliveredFor u ls := by
        simp [deliveredFor]
      have e2 : submitsFor u (ELabel.idle v :: ls) = submitsFor u ls := by
        simp [submitsFor]
      by_cases hv : v = u
      · subst hv
        refine ⟨?_, ?_⟩
        · rw [e1, e2, IH.1]
          simp [worker_exit, upd, busyList, hw]
        · rw [e1, IH.2]; rfl
      · have hvu : u ≠ v := fun h => hv h.symm
        refine ⟨?_, ?_⟩
        · rw [e1, e2, IH.1]
          simp [worker_exit, upd, hvu]
        · rw [e1, IH.2]; rfl
    | noQueue hw hq =>
      rename_i v
      have IH := ih _ w2 htail hnotin
      have e1 : deliveredFor u (ELabel.noQueue v :: ls) = deliveredFor u ls := by
        simp [deliveredFor]
      have e2 : submitsFor u (ELabel.noQueue v :: ls) = submitsFor u ls := by
        simp [submitsFor]
      by_cases hv : v = u
      · subst hv
        refine ⟨?_, ?_⟩
        · rw [e1, e2, IH.1]
          simp [worker_exit, upd, busyList, hw]
        · rw [e1, IH.2]; rfl
      · have hvu : u ≠ v := fun h => hv h.symm
        refine ⟨?_, ?_⟩
        · rw [e1, e2, IH.1]
          simp [worker_exit, upd, hvu]
        · rw [e1, IH.2]; rfl
    | cancel =>
      rename_i v
      have IH := ih _ w2 htail hnotin
      have hvu : u ≠ v := by
        intro h
        exact hne (by rw [h])
      have e1 : deliveredFor u (ELabel.cancel v :: ls) = deliveredFor u ls := by
        simp [deliveredFor]
      have e2 : submitsFor u (ELabel.cancel v :: ls) = submitsFor u ls := by
        simp [submitsFor]
      refine ⟨?_, ?_⟩
      · rw [e1, e2, IH.1]
        simp [cancel_user_commands, upd, hvu]
      · rw [e1, IH.2]; rfl

/-- Once a user's worker task has returned, its stale entry in
`command_workers` persists: along any continuation that does not call
`cancel_user_commands` for that user, the worker entry stays in the
returned state and no further result is ever delivered to the user. -/
theorem finished_sticky (run : String → RunSpec) (u : Nat) :
    ∀ (ls : List ELabel) (w w3 : World), Run run w ls w3 →
      ELabel.cancel u ∉ ls → w.workers u = some WorkerSt.finishedW →
      w3.workers u = some WorkerSt.finishedW ∧
        execFor u w3.executed = execFor u w.executed := by
  intro ls
  induction ls with
  | nil =>
    intro w w3 hrun _ hw
    cases hrun
    exact ⟨hw, rfl⟩
  | cons l ls ih =>
    intro w w3 hrun hnc hw
    rw [List.mem_cons] at hnc
    push_neg at hnc
    obtain ⟨hne, hnotin⟩ := hnc
    cases hrun with
    | cons hstep htail =>
    cases hstep with
    | submit hs =>
      rename_i v c
      have hk : (submit_command w v c).workers u = some WorkerSt.finishedW := by
        by_cases hv : v = u
        · subst hv; exact submit_command_workers_kept w v c _ hw
        · rw [(submit_command_other w v u c (fun h => hv h.symm)).1]; exact hw
      obtain ⟨ha, hb⟩ := ih _ w3 htail hnotin hk
      exact ⟨ha, by rw [hb, (submit_command_fields w v c).2]⟩
    | pull hwv hq =>
      rename_i v c rest
      by_cases hv : v = u
      · subst hv; rw [hw] at hwv; cases hwv
      · have hvu : u ≠ v := fun h => hv h.symm
        have hk : (pull_step w v rest c).workers u = some WorkerSt.finishedW := by
          show upd w.workers v (some (WorkerSt.busy c)) u = some WorkerSt.finishedW
          rw [upd_other _ _ _ _ hvu]; exact hw
        obtain ⟨ha, hb⟩ := ih _ w3 htail hnotin hk
        exact ⟨ha, by rw [hb]; rfl⟩
    | deliver hwv =>
      rename_i v c
      by_cases hv : v = u
      · subst hv; rw [hw] at hwv; cases hwv
      · obtain ⟨hd1, hd2, hd3⟩ := deliver_step_fields run w v c
        have hk : (deliver_step run w v c).workers u = some WorkerSt.finishedW := by
          rw [hd2, upd_other _ _ _ _ (fun h => hv h.symm)]; exact hw
        obtain ⟨ha, hb⟩ := ih _ w3 htail hnotin hk
        refine ⟨ha, ?_⟩
        rw [hb, hd3, execFor_append, execFor_single_other c hv, List.append_nil]
    | idle hwv hq =>
      rename_i v
      by_cases hv : v = u
      · subst hv; rw [hw] at hwv; cases hwv
      · have hvu : u ≠ v := fun h => hv h.symm
        have hk : (worker_exit w v).workers u = some WorkerSt.finishedW := by
          show upd w.workers v (some WorkerSt.finishedW) u = some WorkerSt.finishedW
          rw [upd_other _ _ _ _ hvu]; exact hw
        obtain ⟨ha, hb⟩ := ih _ w3 htail hnotin hk
        exact ⟨ha, by rw [hb]; rfl⟩
    | noQueue hwv hq =>
      rename_i v
      by_cases hv : v = u
      · subst hv; rw [hw] at hwv; cases hwv
      · have hvu : u ≠ v := fun h => hv h.symm
        have hk : (worker_exit w v).workers u = some WorkerSt.finishedW := by
          show upd w.workers v (some WorkerSt.finishedW) u = some WorkerSt.finishedW
          rw [upd_other _ _ _ _ hvu]; exact hw
        obtain ⟨ha, hb⟩ := ih _ w3 htail hnotin hk
        exact ⟨ha, by rw [hb]; rfl⟩
    | cancel =>
      rename_i v
      have hvu : u ≠ v := by
        intro h
        exact hne (by rw [h])
      have hk : (cancel_user_commands w v).workers u = some WorkerSt.finishedW := by
        show upd w.workers v none u = some WorkerSt.finishedW
        rw [upd_other _ _ _ _ hvu]; exact hw
      obtain ⟨ha, hb⟩ := ih _ w3 htail hnotin hk
      exact ⟨ha, by rw [hb]; rfl⟩

/-- Claim C5: consume on a confirmed user always returns true and changes
nothing; on an unconfirmed user it returns false without a write when the
balance is ≤ 0, and otherwise returns true replacing the balance by
max 0 (balance - amount); from the initial grant of 480, 480 successive
consume(u, 1) calls leave the balance at 0 and the 481st returns false. -/
theorem claim_C5 :
    (∀ (w : World) (u : Nat) (amount : Int), w.confirmed u = true →
        consume_tokens w u amount = (w, true)) ∧
    (∀ (w : World) (u : Nat) (amount : Int), w.confirmed u = false →
        get_user_tokens w u ≤ 0 → consume_tokens w u amount = (w, false)) ∧
    (∀ (w : World) (u : Nat) (amount : Int), w.confirmed u = false →
        0 < get_user_tokens w u →
        (consume_tokens w u amount).2 = true ∧
          (consume_tokens w u amount).1.tokens u
            = some (max 0 (get_user_tokens w u - amount))) ∧
    (∀ (w : World) (u : Nat), w.confirmed u = false → w.tokens u = some 480 →
        get_user_tokens (consumeN w u 480) u = 0 ∧
          (consume_tokens (consumeN w u 480) u 1).2 = false) := by
  refine ⟨?_, ?_, ?_, ?_⟩
  · intro w u amount h
    exact consume_tokens_confirmed w u amount h
  · intro w u amount hc hle
    simp [consume_tokens, hc, hle]
  · intro w u amount hc hpos
    have hnot : ¬ get_user_tokens w u ≤ 0 := by omega
    constructor <;> simp [consume_tokens, hc, hnot]
  · intro w u hc hb
    obtain ⟨hbal, hconf⟩ :=
      consumeN_balance u 480 w 480 hc hb (by norm_num)
    have hbal0 : (consumeN w u 480).tokens u = some 0 := by
      rw [hbal]; norm_num
    have hget : get_user_tokens (consumeN w u 480) u = 0 := by
      simp [get_user_tokens, hbal0]
    have hc2 : (consumeN w u 480).confirmed u = false := by rw [hconf]; exact hc
    refine ⟨hget, ?_⟩
    simp [consume_tokens, hc2, hget]

/-- Concrete instantiation of C5: the confirmed user 8 is not billed, and
the unconfirmed user 9 starting at the initial grant of 480 reaches
balance 0 after 480 calls and is refused on the 481st. -/
theorem claim_C5_witness :
    consume_tokens ledgerWorld 8 1 = (ledgerWorld, true) ∧
    get_user_tokens (consumeN ledgerWorld 9 480) 9 = 0 ∧
    (consume_tokens (consumeN ledgerWorld 9 480) 9 1).2 = false := by
  have h1 := claim_C5.1 ledgerWorld 8 1 (by decide)
  have h4 := claim_C5.2.2.2 ledgerWorld 9 (by decide) (by decide)
  exact ⟨h1, h4.1, h4.2⟩

/-- Claim C10: a user with no stored balance reads as balance 0 rather
than an error, so consume(u, 1) on such an unconfirmed user returns false
and creates no record. -/
theorem claim_C10 (w : World) (u : Nat) (h : w.tokens u = none) :
    get_user_tokens w u = 0 ∧
      (w.confirmed u = false → consume_tokens w u 1 = (w, false)) := by
  have hget : get_user_tokens w u = 0 := by simp [get_user_tokens, h]
  refine ⟨hget, fun hc => ?_⟩
  simp [consume_tokens, hc, hget]

/-- Concrete instantiation of C10: user 10 has no ledger record in
`ledgerWorld`; the read yields 0 and consumption is refused with the
world unchanged. -/
theorem claim_C10_witness :
    get_user_tokens ledgerWorld 10 = 0 ∧
      consume_tokens ledgerWorld 10 1 = (ledgerWorld, false) := by
  have h := claim_C10 ledgerWorld 10 (by decide)
  exact ⟨h.1, h.2 (by decide)⟩

/-- Claim C6: for an unconfirmed user the command text goes through the
substring deny list and a match is rejected as forbidden without reaching
the container runtime, while a confirmed user's identical command is
passed to the runtime unchanged inside the shell -c wrapper. -/
theorem claim_C6 (w : World) (u : Nat) (c : String) (run : String → RunSpec)
    (s : Session) (cid : String) (r0 : ContainerRec)
    (hs : w.sessions u = some s) (hcid : s.container_id = some cid)
    (hne : cid ≠ "") (hcont : w.containers cid = some r0) :
    (w.confirmed u = false → is_command_dangerous c = true →
        execute_single_command w u c run = (w, ExecOutcome.forbidden, [])) ∧
    (w.confirmed u = true →
        (execute_single_command w u c run).2.2
          = [s.shell ++ " -c \"" ++ c ++ "\""]) := by
  constructor
  · intro hcf hdang
    simp [execute_single_command, hs, hcid, hne, hcont, hcf, hdang]
  · intro hcf
    simp only [execute_single_command, hs, hcid, hne, if_neg, hcont]
    have : ¬ (w.confirmed u = false ∧ is_command_dangerous c = true) := by
      rintro ⟨h1, _⟩; rw [hcf] at h1; cases h1
    simp only [hne, ite_false, this, if_false]
    split <;> rfl

/-- Concrete instantiation of C6: the unconfirmed user 5 submitting
rm -rf / is refused with no runtime invocation; the confirmed user 6
submitting the identical text reaches the runtime as bash -c "rm -rf /". -/
theorem claim_C6_witness :
    execute_single_command execWorld 5 "rm -rf /" okRun
        = (execWorld, ExecOutcome.forbidden, []) ∧
      (execute_single_command execWorld 6 "rm -rf /" okRun).2.2
        = ["bash -c \"rm -rf /\""] := by
  have h5 := claim_C6 execWorld 5 "rm -rf /" okRun demo_session "cid1"
    demo_container (by decide) (by decide) (by decide) (by decide)
  have h6 := claim_C6 execWorld 6 "rm -rf /" okRun bash_session "cid1"
    demo_container (by decide) (by decide) (by decide) (by decide)
  exact ⟨h5.1 (by decide) (by decide), (h6.2 (by decide)).trans (by decide)⟩

/-- Claim C7: the probationary command timeout is the fixed 80 seconds of
test_config; a probationary invocation that takes longer yields the
timeout outcome instead of the normal result, and a non-probationary
invocation is delivered normally however long it takes. -/
theorem claim_C7 (w : World) (u : Nat) (c : String) (run : String → RunSpec)
    (s : Session) (cid : String) (r0 : ContainerRec)
    (hs : w.sessions u = some s) (hcid : s.container_id = some cid)
    (hne : cid ≠ "") (hcont : w.containers cid = some r0)
    (hsafe : ¬ (w.confirmed u = false ∧ is_command_dangerous c = true)) :
    test_config.timeout = 80 ∧
    (s.is_test = true →
        test_config.timeout < (run (s.shell ++ " -c \"" ++ c ++ "\"")).duration →
        execute_single_command w u c run
          = (w, ExecOutcome.commandTimeout,
              [s.shell ++ " -c \"" ++ c ++ "\""])) ∧
    (s.is_test = false →
        execute_single_command w u c run
          = (w, ExecOutcome.delivered
                  (render_output (run (s.shell ++ " -c \"" ++ c ++ "\"")))
                  (run (s.shell ++ " -c \"" ++ c ++ "\"")).exit_code,
              [s.shell ++ " -c \"" ++ c ++ "\""])) := by
  refine ⟨rfl, ?_, ?_⟩
  · intro hTest hd
    simp [execute_single_command, hs, hcid, hne, hcont, hsafe, hTest, hd]
  · intro hTest
    simp [execute_single_command, hs, hcid, hne, hcont, hsafe, hTest]

/-- Concrete instantiation of C7: the probationary user 11's
100-second command times out; the non-probationary user 12's
million-second command is still delivered. -/
theorem claim_C7_witness :
    execute_single_command execWorld 11 "sleep 100" slowRun
        = (execWorld, ExecOutcome.commandTimeout, ["sh -c \"sleep 100\""]) ∧
      execute_single_command execWorld 12 "pwd" hugeRun
        = (execWorld, ExecOutcome.delivered "done" 0, ["sh -c \"pwd\""]) := by
  have h11 := claim_C7 execWorld 11 "sleep 100" slowRun test_session "cid2"
    demo_container (by decide) (by decide) (by decide) (by decide) (by decide)
  have h12 := claim_C7 execWorld 12 "pwd" hugeRun demo_session "cid1"
    demo_container (by decide) (by decide) (by decide) (by decide) (by decide)
  have ha := h11.2.1 (by decide) (by decide)
  have hb := h12.2.2 (by decide)
  have e1 : test_session.shell ++ " -c \"" ++ "sleep 100" ++ "\"" = "sh -c \"sleep 100\"" := by decide
  have e2 : demo_session.shell ++ " -c \"" ++ "pwd" ++ "\"" = "sh -c \"pwd\"" := by decide
  rw [e1] at ha
  rw [e2] at hb
  have e3 : render_output (hugeRun "sh -c \"pwd\"") = "done" := by decide
  have e4 : (hugeRun "sh -c \"pwd\"").exit_code = 0 := by decide
  rw [e3, e4] at hb
  exact ⟨ha, hb⟩

theorem upd_idem {β : Type} (f : Nat → β) (k : Nat) (v : β) :
    upd (upd f k v) k v = upd f k v := by
  funext x
  by_cases h : x = k <;> simp [upd, h]

theorem upd_eq_self {β : Type} (f : Nat → β) (k : Nat) (v : β)
    (h : f k = v) : upd f k v = f := by
  funext x
  by_cases hx : x = k
  · subst hx; simp [upd, h]
  · simp [upd, hx]

/-- Every branch of `stop_session` produces the same shape of world:
session key deleted, worker and queue entries deleted, tokens, confirmed
set, billing and delivery trace untouched, containers possibly reduced. -/
theorem stop_session_shape (w : World) (u : Nat) :
    ∃ b, (stop_session w u).1 =
      { sessions := upd w.sessions u none, tokens := w.tokens,
        confirmed := w.confirmed, containers := b, billing := w.billing,
        queues := upd w.queues u none, workers := upd w.workers u none,
        executed := w.executed } := by
  unfold stop_session cancel_user_commands
  dsimp only
  repeat' split
  all_goals exact ⟨_, rfl⟩

/-- Claim C8: stop_session is idempotent — with no session record it
performs no teardown and leaves the store untouched, and an immediately
repeated call performs no second teardown and changes nothing. -/
theorem claim_C8 (w : World) (u : Nat) :
    (w.sessions u = none →
        (stop_session w u).2 = false ∧
        (stop_session w u).1.sessions = w.sessions ∧
        (stop_session w u).1.containers = w.containers ∧
        (stop_session w u).1.tokens = w.tokens ∧
        (stop_session w u).1.confirmed = w.confirmed) ∧
    (∀ (s : Session) (cid : String) (r0 : ContainerRec),
        w.sessions u = some s → s.container_id = some cid → cid ≠ "" →
        w.containers cid = some r0 →
        (stop_session w u).2 = true ∧
        (stop_session w u).1.sessions u = none ∧
        (stop_session w u).1.containers cid = none) ∧
    stop_session (stop_session w u).1 u = ((stop_session w u).1, false) := by
  refine ⟨?_, ?_, ?_⟩
  · intro h
    have e : upd w.sessions u none = w.sessions := upd_eq_self _ _ _ h
    unfold stop_session cancel_user_commands
    dsimp only
    rw [h]
    exact ⟨rfl, e, rfl, rfl, rfl⟩
  · intro s cid r0 hs hcid hne hcont
    unfold stop_session cancel_user_commands
    dsimp only
    rw [hs]
    dsimp only
    rw [hcid]
    dsimp only
    rw [if_neg hne, hcont]
    dsimp only
    exact ⟨rfl, upd_same _ _ _, updS_same _ _ _⟩
  · obtain ⟨b, hshape⟩ := stop_session_shape w u
    rw [hshape]
    unfold stop_session cancel_user_commands
    dsimp only
    rw [upd_idem, upd_idem, upd_same]
    rw [upd_idem]

/-- Concrete instantiation of C8: stopping the session-less user 3 of the
execution demo world touches neither the session store nor the container
table, and a repeated stop of user 5 is a no-op the second time. -/
theorem claim_C8_witness :
    (stop_session execWorld 3).2 = false ∧
    (stop_session execWorld 3).1.sessions = execWorld.sessions ∧
    (stop_session execWorld 5).2 = true ∧
    (stop_session execWorld 5).1.containers "cid1" = none ∧
    stop_session (stop_session execWorld 5).1 5
      = ((stop_session execWorld 5).1, false) := by
  have h3 := claim_C8 execWorld 3
  have h5 := claim_C8 execWorld 5
  have hn : execWorld.sessions 3 = none := by decide
  have ht := h5.2.1 demo_session "cid1" demo_container (by decide) (by decide)
    (by decide) (by decide)
  exact ⟨(h3.1 hn).1, (h3.1 hn).2.1, ht.1, ht.2.2, h5.2.2⟩

/-- Claim C9: a stored session record whose container is missing or not
running is deleted by the startup scan, while token balances, the
confirmed-user set, and the records of users whose containers run are
untouched. -/
theorem claim_C9 (w : World) (u : Nat) (s : Session) (cid : String)
    (hs : w.sessions u = some s) (hcid : s.container_id = some cid)
    (hne : cid ≠ "")
    (hdead : w.containers cid = none ∨
       ∃ r, w.containers cid = some r ∧ r.status ≠ "running")
    (hothers : ∀ v, v ≠ u → ∀ s2, w.sessions v = some s2 →
       cleanup_one w.containers s2 = some s2) :
    (cleanup_old_sessions w).sessions u = none ∧
    (cleanup_old_sessions w).tokens = w.tokens ∧
    (cleanup_old_sessions w).confirmed = w.confirmed ∧
    (∀ v, v ≠ u → (cleanup_old_sessions w).sessions v = w.sessions v) := by
  refine ⟨?_, rfl, rfl, ?_⟩
  · show (match w.sessions u with
      | none => none
      | some s => cleanup_one w.containers s) = none
    rw [hs]
    show cleanup_one w.containers s = none
    unfold cleanup_one
    rw [hcid]
    rcases hdead with hnone | ⟨r, hr, hst⟩
    · simp [hne, hnone]
    · simp [hne, hr, hst]
  · intro v hv
    show (match w.sessions v with
      | none => none
      | some s => cleanup_one w.containers s) = w.sessions v
    cases hsv : w.sessions v with
    | none => rfl
    | some s2 => exact hothers v hv s2 hsv

/-- Concrete instantiation of C9: in `staleWorld`, the scan deletes user
3's record (container gone) while leaving the balances, the confirmed
set and user 4's record (container running) unchanged. -/
theorem claim_C9_witness :
    (cleanup_old_sessions staleWorld).sessions 3 = none ∧
    (cleanup_old_sessions staleWorld).tokens = staleWorld.tokens ∧
    (cleanup_old_sessions staleWorld).confirmed = staleWorld.confirmed ∧
    (cleanup_old_sessions staleWorld).sessions 4 = staleWorld.sessions 4 := by
  have h := claim_C9 staleWorld 3 { demo_session with container_id := some "gone" }
    "gone" (by decide) (by decide) (by decide) (Or.inl (by decide))
    (by
      intro v hv s2 hsv
      by_cases h4 : v = 4
      · subst h4
        have e : some s2 = some bash_session := hsv.symm.trans (by decide)
        injection e with e2
        subst e2
        decide
      · by_cases h5 : v = 5
        · subst h5
          have e : some s2 = some demo_session :=
            hsv.symm.trans (by decide)
          injection e with e2
          subst e2
          decide
        · exfalso
          have hnone : staleWorld.sessions v = none := by
            show (if v = 3 then _ else if v = 4 then _ else if v = 5 then _ else none) = none
            simp [hv, h4, h5]
          rw [hnone] at hsv
          cases hsv)
  exact ⟨h.1, h.2.1, h.2.2.1, h.2.2.2 4 (by decide)⟩

theorem teardown_old_fields (w : World) (u : Nat) :
    (teardown_old w u).sessions = w.sessions ∧
      (teardown_old w u).tokens = w.tokens ∧
      (teardown_old w u).confirmed = w.confirmed ∧
      (teardown_old w u).billing = w.billing := by
  unfold teardown_old
  repeat' split
  all_goals exact ⟨rfl, rfl, rfl, rfl⟩

/-- When the stored record names an existing container, stage 1 of
creation removes exactly that container. -/
theorem teardown_old_removes (w : World) (u : Nat) (s : Session)
    (cid : String) (r0 : ContainerRec) (hs : w.sessions u = some s)
    (hcid : s.container_id = some cid) (hne : cid ≠ "")
    (hex : w.containers cid = some r0) :
    teardown_old w u = { w with containers := updS w.containers cid none } := by
  unfold teardown_old
  rw [hs]
  show (match s.container_id with
    | some cid =>
      if cid = "" then w
      else
        match w.containers cid with
        | some _ => { w with containers := updS w.containers cid none }
        | none => w
    | none => w) = _
  rw [hcid]
  simp [hne, hex]

/-- The world after a successful `create_user_container`, described field
by field: the new container is registered as running, the session record
is stored under the user's key on top of the stage-1 world, and the
ledger and confirmed set are untouched. -/
theorem create_state (w : World) (u : Nat) (image shell : String)
    (ttl : Option Nat) (ttd ck : String) (network is_test : Bool)
    (newCid : String) (now : Nat) (cfg : ResourceConfig)
    (hc : cfgOf is_test ck = some cfg) :
    ∃ r0 : ContainerRec, r0.status = "running" ∧
      (create_user_container w u image shell ttl ttd ck network is_test
          newCid now).1.sessions
        = upd (teardown_old w u).sessions u
            (some { container_id := some newCid, image := image,
                    shell := shell, ttl_seconds := ttl, ttl_display := ttd,
                    config_name := cfg.name, network := network,
                    created_at := now, is_confirmed := w.confirmed u,
                    is_test := is_test }) ∧
      (create_user_container w u image shell ttl ttd ck network is_test
          newCid now).1.containers
        = updS (teardown_old w u).containers newCid (some r0) ∧
      (create_user_container w u image shell ttl ttd ck network is_test
          newCid now).1.confirmed = w.confirmed ∧
      (create_user_container w u image shell ttl ttd ck network is_test
          newCid now).1.tokens = w.tokens := by
  obtain ⟨hts, htt, htc, htb⟩ := teardown_old_fields w u
  unfold create_user_container persist_new
  rw [hc]
  dsimp only
  rw [hts, htt, htc]
  repeat' split
  all_goals exact ⟨_, rfl, rfl, rfl, rfl, rfl⟩

/-- Claim C3: the session store holds at most one record per user (one
key session:u), and creating a session twice in sequence stops and
removes the first environment before the second record overwrites the
same key, leaving exactly the second environment alive. -/
theorem claim_C3 (w : World) (u : Nat)
    (img1 sh1 : String) (t1 : Option Nat) (td1 ck1 : String) (n1 test1 : Bool)
    (cid1 : String) (now1 : Nat)
    (img2 sh2 : String) (t2 : Option Nat) (td2 ck2 : String) (n2 test2 : Bool)
    (cid2 : String) (now2 : Nat) (cfg1 cfg2 : ResourceConfig)
    (hc1 : cfgOf test1 ck1 = some cfg1) (hc2 : cfgOf test2 ck2 = some cfg2)
    (hne1 : cid1 ≠ "") (hne12 : cid2 ≠ cid1) :
    let p1 := create_user_container w u img1 sh1 t1 td1 ck1 n1 test1 cid1 now1
    let p2 := create_user_container p1.1 u img2 sh2 t2 td2 ck2 n2 test2 cid2 now2
    (∃ s1, p1.1.sessions u = some s1 ∧ s1.container_id = some cid1) ∧
    (p1.1.containers cid1).isSome = true ∧
    p2.1.containers cid1 = none ∧
    (∃ s2, p2.1.sessions u = some s2 ∧ s2.container_id = some cid2) ∧
    (∃ r2, p2.1.containers cid2 = some r2 ∧ r2.status = "running") := by
  intro p1 p2
  obtain ⟨r1, hr1s, hsess1, hcont1, _, _⟩ :=
    create_state w u img1 sh1 t1 td1 ck1 n1 test1 cid1 now1 cfg1 hc1
  have hp1sess : p1.1.sessions u
      = some { container_id := some cid1, image := img1, shell := sh1,
               ttl_seconds := t1, ttl_display := td1, config_name := cfg1.name,
               network := n1, created_at := now1,
               is_confirmed := w.confirmed u, is_test := test1 } := by
    show (create_user_container w u img1 sh1 t1 td1 ck1 n1 test1 cid1 now1).1.sessions u = _
    rw [hsess1, upd_same]
  have hp1cont : p1.1.containers cid1 = some r1 := by
    show (create_user_container w u img1 sh1 t1 td1 ck1 n1 test1 cid1 now1).1.containers cid1 = _
    rw [hcont1, updS_same]
  have htear : teardown_old p1.1 u
      = { p1.1 with containers := updS p1.1.containers cid1 none } :=
    teardown_old_removes p1.1 u _ cid1 r1 hp1sess rfl hne1 hp1cont
  obtain ⟨r2, hr2s, hsess2, hcont2, _, _⟩ :=
    create_state p1.1 u img2 sh2 t2 td2 ck2 n2 test2 cid2 now2 cfg2 hc2
  refine ⟨⟨_, hp1sess, rfl⟩, ?_, ?_, ?_, ?_⟩
  · rw [hp1cont]; rfl
  · show (create_user_container p1.1 u img2 sh2 t2 td2 ck2 n2 test2 cid2
        now2).1.containers cid1 = none
    rw [hcont2, updS_other _ _ _ _ (fun h => hne12 h.symm), htear]
    exact updS_same _ _ _
  · have h2 : (create_user_container p1.1 u img2 sh2 t2 td2 ck2 n2 test2 cid2
        now2).1.sessions u
        = some { container_id := some cid2, image := img2, shell := sh2,
                 ttl_seconds := t2, ttl_display := td2,
                 config_name := cfg2.name, network := n2, created_at := now2,
                 is_confirmed := p1.1.confirmed u, is_test := test2 } := by
      rw [hsess2, upd_same]
    exact ⟨_, h2, rfl⟩
  · refine ⟨r2, ?_, hr2s⟩
    show (create_user_container p1.1 u img2 sh2 t2 td2 ck2 n2 test2 cid2
        now2).1.containers cid2 = some r2
    rw [hcont2, updS_same]

/-- Concrete instantiation of C3: after the second creation the first
container is gone and the second is present, and the first creation had
registered its container. -/
theorem claim_C3_witness :
    c3p2.1.containers "c100" = none ∧
    (c3p2.1.containers "c200").isSome = true ∧
    (c3p1.1.containers "c100").isSome = true := by
  have h := claim_C3 emptyWorld 2 "alpine:latest" "sh" (some 3600) "1h"
    "minimal" true false "c100" 0 "ubuntu:latest" "bash" none "always"
    "medium" true false "c200" 5
    { name := "Базовая", cpu_period := 100000, cpu_quota := 30000,
      mem_limit := "246m", pids_limit := 25,
      description := "246MB RAM, 30% CPU" }
    { name := "Средняя", cpu_period := 100000, cpu_quota := 50000,
      mem_limit := "246m", pids_limit := 50,
      description := "270MB RAM, 50% CPU" }
    (by decide) (by decide) (by decide) (by decide)
  obtain ⟨h1, h2, h3, h4, h5⟩ := h
  refine ⟨h3, ?_, h2⟩
  obtain ⟨r2, hr2, _⟩ := h5
  rw [show c3p2.1.containers "c200" = some r2 from hr2]
  rfl

/-- Claim C1: for an untrusted non-probationary user, session creation is
supposed to start the token billing task, but self.start_token_consumption
is not an attribute of the bot object (the worker body exists only as a
function nested inside add_tokens), so the call raises AttributeError and
no billing task ever starts. -/
theorem claim_C1 (w : World) (u : Nat) (image shell : String)
    (ttl : Option Nat) (ttd ck : String) (network : Bool) (newCid : String)
    (now : Nat) (cfg : ResourceConfig) (hc : cfgOf false ck = some cfg)
    (huntrusted : w.confirmed u = false) :
    terminalBotHasAttr "start_token_consumption" = false ∧
    terminalBotMethods.contains "_token_consumption_worker" = false ∧
    (create_user_container w u image shell ttl ttd ck network false newCid
        now).2 = CreateResult.attributeError "start_token_consumption" ∧
    (create_user_container w u image shell ttl ttd ck network false newCid
        now).1.billing = w.billing := by
  obtain ⟨hts, htt, htc, htb⟩ := teardown_old_fields w u
  refine ⟨by decide, by decide, ?_, ?_⟩
  · unfold create_user_container persist_new
    rw [hc]
    dsimp only
    rw [htc]
    simp [huntrusted, show terminalBotHasAttr "start_token_consumption" = false from by decide]
  · unfold create_user_container persist_new
    rw [hc]
    dsimp only
    rw [htc, htb]
    simp [huntrusted, show terminalBotHasAttr "start_token_consumption" = false from by decide]

/-- Concrete instantiation of C1: creating a session for the untrusted
user 2 in the empty world ends in the AttributeError and leaves the set
of billing tasks empty. -/
theorem claim_C1_witness :
    c3p1.2 = CreateResult.attributeError "start_token_consumption" ∧
    c3p1.1.billing = emptyWorld.billing := by
  have h := claim_C1 emptyWorld 2 "alpine:latest" "sh" (some 3600) "1h"
    "minimal" true "c100" 0
    { name := "Базовая", cpu_period := 100000, cpu_quota := 30000,
      mem_limit := "246m", pids_limit := 25,
      description := "246MB RAM, 30% CPU" }
    (by decide) (by decide)
  exact ⟨h.2.2.1, h.2.2.2⟩

/-- Claim C2 concerns the idle eviction of a user's worker.  In the code
the worker's loop does exit after the 5-minute idle timeout, but nothing
removes its entry from command_workers or destroys the queue, so a
subsequent submission finds the registration, starts no new worker,
enqueues onto the surviving queue, and the command can never be pulled or
delivered while no cancellation intervenes. -/
theorem claim_C2 (run : String → RunSpec) (w w1 w2 : World) (u : Nat)
    (c : String) (h1 : EngStep run w (ELabel.idle u) w1)
    (h2 : EngStep run w1 (ELabel.submit u c) w2) :
    w1.workers u = some WorkerSt.finishedW ∧
    w1.queues u = w.queues u ∧
    w2.workers u = some WorkerSt.finishedW ∧
    w2.queues u = some [c] ∧
    (∀ (w3 : World) (c2 : String), ¬ EngStep run w2 (ELabel.pull u c2) w3) ∧
    (∀ (ls : List ELabel) (w3 : World), Run run w2 ls w3 →
        ELabel.cancel u ∉ ls →
        execFor u w3.executed = execFor u w2.executed) := by
  cases h1 with
  | idle hw hq =>
  cases h2 with
  | submit hs =>
  have e1 : (worker_exit w u).workers u = some WorkerSt.finishedW := by
    show upd w.workers u (some WorkerSt.finishedW) u = _
    exact upd_same _ _ _
  have e2 : (worker_exit w u).queues u = w.queues u := rfl
  have e3 : (submit_command (worker_exit w u) u c).workers u
      = some WorkerSt.finishedW :=
    submit_command_workers_kept _ u c _ e1
  have e4 : (submit_command (worker_exit w u) u c).queues u = some [c] := by
    rw [submit_command_queue, e2, hq]
    rfl
  refine ⟨e1, e2, e3, e4, ?_, ?_⟩
  · intro w3 c2 hpull
    cases hpull with
    | pull hw3 hq3 =>
      rw [e3] at hw3
      exact (by decide : some WorkerSt.finishedW ≠ some WorkerSt.looping) hw3
  · intro ls w3 hrun hnc
    exact (finished_sticky run u ls _ w3 hrun hnc e3).2

/-- Concrete instantiation of C2: after the idle timeout, user 7's
submission leaves the stale worker registration in place and the new
command stuck in the queue. -/
theorem claim_C2_witness :
    c2w2.workers 7 = some WorkerSt.finishedW ∧
    c2w2.queues 7 = some ["echo hi"] ∧
    c2w1.workers 7 = some WorkerSt.finishedW := by
  have hs1 : EngStep okRun c2w0 (ELabel.idle 7) c2w1 :=
    EngStep.idle (by decide) (by decide)
  have hs2 : EngStep okRun c2w1 (ELabel.submit 7 "echo hi") c2w2 :=
    EngStep.submit (by decide)
  have h := claim_C2 okRun c2w0 c2w1 c2w2 7 "echo hi" hs1 hs2
  exact ⟨h.2.2.1, h.2.2.2.1, h.1⟩

/-- Claim C4: along any run without cancellation for user u, starting
with no worker, no queue and no deliveries for u, the deliveries to u
form a prefix of u's submissions (strict FIFO), the delivery trace equals
exactly the delivered labels, and at most one command of u executes at
any moment. -/
theorem claim_C4 (run : String → RunSpec) (u : Nat) (ls : List ELabel)
    (w0 w : World) (hrun : Run run w0 ls w) (hnc : ELabel.cancel u ∉ ls)
    (hw0 : w0.workers u = none) (hq0 : w0.queues u = none)
    (he0 : execFor u w0.executed = []) :
    (∃ t, deliveredFor u ls ++ t = submitsFor u ls) ∧
    execFor u w.executed = deliveredFor u ls ∧
    (busyList (w.workers u)).length ≤ 1 := by
  obtain ⟨hinv, hexec⟩ := run_fifo_invariant run u ls w0 w hrun hnc
  rw [hw0, hq0] at hinv
  simp only [busyList, queueList, List.append_nil, List.nil_append] at hinv
  refine ⟨⟨busyList (w.workers u) ++ queueList (w.queues u), ?_⟩, ?_, ?_⟩
  · rw [← List.append_assoc]
    exact hinv
  · rw [hexec, he0]
    simp
  · cases hv : w.workers u with
    | none => simp [busyList]
    | some s => cases s <;> simp [busyList]

/-- Concrete instantiation of C4: submitting date, pwd, ls in that order
and letting the worker drain the queue delivers exactly those results in
that order. -/
theorem claim_C4_witness :
    execFor 7 c4w9.executed = ["date", "pwd", "ls"] ∧
    submitsFor 7 c4ls = ["date", "pwd", "ls"] := by
  have hrun : Run okRun c4w0 c4ls c4w9 :=
    Run.cons (EngStep.submit (by decide))
      (Run.cons (EngStep.submit (by decide))
        (Run.cons (EngStep.submit (by decide))
          (Run.cons (EngStep.pull (by decide) (by decide))
            (Run.cons (EngStep.deliver (by decide))
              (Run.cons (EngStep.pull (by decide) (by decide))
                (Run.cons (EngStep.deliver (by decide))
                  (Run.cons (EngStep.pull (by decide) (by decide))
                    (Run.cons (EngStep.deliver (by decide)) Run.nil))))))))
  have h := claim_C4 okRun 7 c4ls c4w0 c4w9 hrun (by decide) (by decide)
    (by decide) (by decide)
  exact ⟨h.2.1.trans (by decide), by decide⟩
